import Mathlib

/-!
Verification of the agentea core: agent/task lifecycle (src/app/agents/base.py),
agent registry (src/app/agents/registry.py), the Ollama client's streaming
`generate` and the structured-output extractor in `generate_structured`
(src/app/clients/ollama_client.py), and the executor agent's plan pipeline
(src/app/agents/executor/executor_agent.py).

Python values that flow through these functions (JSON payloads, task
parameters, step records) are modelled by `JsonVal`; Python dicts with string
keys are association lists with dict update/lookup semantics.  `json.loads`
is modelled by `jsonParse` over the JSON fragment these components exercise
(integer numerals; non-integer numbers are outside the modelled fragment).
Exceptions are modelled with `Except String`.
-/

/-- Model of a Python value as produced by `json.loads` / stored in dicts:
null, bool, (integer) number, string, list, dict. -/
inductive JsonVal where
  | null : JsonVal
  | bool : Bool → JsonVal
  | num : Int → JsonVal
  | str : String → JsonVal
  | arr : List JsonVal → JsonVal
  | obj : List (String × JsonVal) → JsonVal
deriving Repr

mutual

/-- Boolean structural equality on `JsonVal` (the nested inductive defeats
automatic `DecidableEq` derivation). -/
def JsonVal.beq : JsonVal → JsonVal → Bool
  | JsonVal.null, JsonVal.null => true
  | JsonVal.bool a, JsonVal.bool b => a == b
  | JsonVal.num a, JsonVal.num b => a == b
  | JsonVal.str a, JsonVal.str b => a == b
  | JsonVal.arr a, JsonVal.arr b => JsonVal.beqList a b
  | JsonVal.obj a, JsonVal.obj b => JsonVal.beqFields a b
  | _, _ => false

def JsonVal.beqList : List JsonVal → List JsonVal → Bool
  | [], [] => true
  | x :: xs, y :: ys => JsonVal.beq x y && JsonVal.beqList xs ys
  | _, _ => false

def JsonVal.beqFields :
    List (String × JsonVal) → List (String × JsonVal) → Bool
  | [], [] => true
  | (k1, v1) :: xs, (k2, v2) :: ys =>
      k1 == k2 && JsonVal.beq v1 v2 && JsonVal.beqFields xs ys
  | _, _ => false

end

mutual

theorem JsonVal.beq_refl : ∀ a : JsonVal, JsonVal.beq a a = true
  | JsonVal.null => rfl
  | JsonVal.bool a => by simp [JsonVal.beq]
  | JsonVal.num a => by simp [JsonVal.beq]
  | JsonVal.str a => by simp [JsonVal.beq]
  | JsonVal.arr a => by simp [JsonVal.beq, JsonVal.beqList_refl a]
  | JsonVal.obj a => by simp [JsonVal.beq, JsonVal.beqFields_refl a]

theorem JsonVal.beqList_refl : ∀ a : List JsonVal, JsonVal.beqList a a = true
  | [] => rfl
  | x :: xs => by
      simp [JsonVal.beqList, JsonVal.beq_refl x, JsonVal.beqList_refl xs]

theorem JsonVal.beqFields_refl :
    ∀ a : List (String × JsonVal), JsonVal.beqFields a a = true
  | [] => rfl
  | (k, v) :: xs => by
      simp [JsonVal.beqFields, JsonVal.beq_refl v, JsonVal.beqFields_refl xs]

end

mutual

theorem JsonVal.eq_of_beq : ∀ a b : JsonVal, JsonVal.beq a b = true → a = b
  | JsonVal.null, JsonVal.null, _ => rfl
  | JsonVal.null, JsonVal.bool _, h => by simp [JsonVal.beq] at h
  | JsonVal.null, JsonVal.num _, h => by simp [JsonVal.beq] at h
  | JsonVal.null, JsonVal.str _, h => by simp [JsonVal.beq] at h
  | JsonVal.null, JsonVal.arr _, h => by simp [JsonVal.beq] at h
  | JsonVal.null, JsonVal.obj _, h => by simp [JsonVal.beq] at h
  | JsonVal.bool _, JsonVal.null, h => by simp [JsonVal.beq] at h
  | JsonVal.bool a, JsonVal.bool b, h => by
      simp [JsonVal.beq] at h; simp [h]
  | JsonVal.bool _, JsonVal.num _, h => by simp [JsonVal.beq] at h
  | JsonVal.bool _, JsonVal.str _, h => by simp [JsonVal.beq] at h
  | JsonVal.bool _, JsonVal.arr _, h => by simp [JsonVal.beq] at h
  | JsonVal.bool _, JsonVal.obj _, h => by simp [JsonVal.beq] at h
  | JsonVal.num _, JsonVal.null, h => by simp [JsonVal.beq] at h
  | JsonVal.num _, JsonVal.bool _, h => by simp [JsonVal.beq] at h
  | JsonVal.num a, JsonVal.num b, h => by
      simp [JsonVal.beq] at h; simp [h]
  | JsonVal.num _, JsonVal.str _, h => by simp [JsonVal.beq] at h
  | JsonVal.num _, JsonVal.arr _, h => by simp [JsonVal.beq] at h
  | JsonVal.num _, JsonVal.obj _, h => by simp [JsonVal.beq] at h
  | JsonVal.str _, JsonVal.null, h => by simp [JsonVal.beq] at h
  | JsonVal.str _, JsonVal.bool _, h => by simp [JsonVal.beq] at h
  | JsonVal.str _, JsonVal.num _, h => by simp [JsonVal.beq] at h
  | JsonVal.str a, JsonVal.str b, h => by
      simp [JsonVal.beq] at h; simp [h]
  | JsonVal.str _, JsonVal.arr _, h => by simp [JsonVal.beq] at h
  | JsonVal.str _, JsonVal.obj _, h => by simp [JsonVal.beq] at h
  | JsonVal.arr _, JsonVal.null, h => by simp [JsonVal.beq] at h
  | JsonVal.arr _, JsonVal.bool _, h => by simp [JsonVal.beq] at h
  | JsonVal.arr _, JsonVal.num _, h => by simp [JsonVal.beq] at h
  | JsonVal.arr _, JsonVal.str _, h => by simp [JsonVal.beq] at h
  | JsonVal.arr a, JsonVal.arr b, h => by
      simp only [JsonVal.beq] at h
      exact congrArg JsonVal.arr (JsonVal.eqList_of_beq a b h)
  | JsonVal.arr _, JsonVal.obj _, h => by simp [JsonVal.beq] at h
  | JsonVal.obj _, JsonVal.null, h => by simp [JsonVal.beq] at h
  | JsonVal.obj _, JsonVal.bool _, h => by simp [JsonVal.beq] at h
  | JsonVal.obj _, JsonVal.num _, h => by simp [JsonVal.beq] at h
  | JsonVal.obj _, JsonVal.str _, h => by simp [JsonVal.beq] at h
  | JsonVal.obj _, JsonVal.arr _, h => by simp [JsonVal.beq] at h
  | JsonVal.obj a, JsonVal.obj b, h => by
      simp only [JsonVal.beq] at h
      exact congrArg JsonVal.obj (JsonVal.eqFields_of_beq a b h)

theorem JsonVal.eqList_of_beq :
    ∀ a b : List JsonVal, JsonVal.beqList a b = true → a = b
  | [], [], _ => rfl
  | [], _ :: _, h => by simp [JsonVal.beqList] at h
  | _ :: _, [], h => by simp [JsonVal.beqList] at h
  | x :: xs, y :: ys, h => by
      simp only [JsonVal.beqList, Bool.and_eq_true] at h
      rw [JsonVal.eq_of_beq x y h.1, JsonVal.eqList_of_beq xs ys h.2]

theorem JsonVal.eqFields_of_beq :
    ∀ a b : List (String × JsonVal), JsonVal.beqFields a b = true → a = b
  | [], [], _ => rfl
  | [], _ :: _, h => by simp [JsonVal.beqFields] at h
  | _ :: _, [], h => by simp [JsonVal.beqFields] at h
  | (k1, v1) :: xs, (k2, v2) :: ys, h => by
      simp only [JsonVal.beqFields, Bool.and_eq_true, beq_iff_eq] at h
      rw [h.1.1, JsonVal.eq_of_beq v1 v2 h.1.2,
        JsonVal.eqFields_of_beq xs ys h.2]

end

instance : DecidableEq JsonVal := fun a b =>
  decidable_of_iff (JsonVal.beq a b = true)
    ⟨JsonVal.eq_of_beq a b, fun h => h ▸ JsonVal.beq_refl a⟩

instance {ε α : Type} [DecidableEq ε] [DecidableEq α] :
    DecidableEq (Except ε α) := fun x y =>
  match x, y with
  | Except.ok a, Except.ok b =>
      if h : a = b then isTrue (by rw [h])
      else isFalse (by intro hc; cases hc; exact h rfl)
  | Except.error a, Except.error b =>
      if h : a = b then isTrue (by rw [h])
      else isFalse (by intro hc; cases hc; exact h rfl)
  | Except.ok _, Except.error _ => isFalse (by intro hc; cases hc)
  | Except.error _, Except.ok _ => isFalse (by intro hc; cases hc)

/-- A Python dict with string keys (insertion-ordered association list;
keys are unique when built through `dinsert`). -/
abbrev PyDict := List (String × JsonVal)

/-- `d[k]` lookup / `k in d` membership: first binding of `k`. -/
def dlookup {α : Type} (d : List (String × α)) (k : String) : Option α :=
  List.lookup k d

/-- Python `d[k] = v`: replaces the value of an existing key in place,
otherwise appends (dicts preserve insertion order). -/
def dinsert {α : Type} (d : List (String × α)) (k : String) (v : α) :
    List (String × α) :=
  match d with
  | [] => [(k, v)]
  | (k0, v0) :: rest =>
      if k0 = k then (k, v) :: rest else (k0, v0) :: dinsert rest k v

theorem dlookup_dinsert_self {α : Type} (d : List (String × α)) (k : String)
    (v : α) : dlookup (dinsert d k v) k = some v := by
  induction d with
  | nil => simp [dinsert, dlookup, List.lookup]
  | cons hd tl ih =>
      obtain ⟨k0, v0⟩ := hd
      by_cases h : k0 = k
      · subst h
        simp [dinsert, dlookup, List.lookup]
      · have hb : (k == k0) = false := beq_eq_false_iff_ne.mpr (Ne.symm h)
        simpa [dinsert, h, dlookup, List.lookup, hb] using ih

theorem dlookup_dinsert_other {α : Type} (d : List (String × α))
    (k k0 : String) (v : α) (hne : k0 ≠ k) :
    dlookup (dinsert d k v) k0 = dlookup d k0 := by
  induction d with
  | nil =>
      have hb : (k0 == k) = false := beq_eq_false_iff_ne.mpr hne
      simp [dinsert, dlookup, List.lookup, hb]
  | cons hd tl ih =>
      obtain ⟨k1, v1⟩ := hd
      by_cases h : k1 = k
      · subst h
        have hb : (k0 == k1) = false := beq_eq_false_iff_ne.mpr hne
        simp [dinsert, dlookup, List.lookup, hb]
      · by_cases h0 : k0 = k1
        · subst h0
          simp [dinsert, h, dlookup, List.lookup]
        · have hb : (k0 == k1) = false := beq_eq_false_iff_ne.mpr h0
          simpa [dinsert, h, dlookup, List.lookup, hb] using ih

/-- `AgentStatus` from src/app/agents/types.py. -/
inductive AgentStatus where
  | idle : AgentStatus
  | running : AgentStatus
  | completed : AgentStatus
  | failed : AgentStatus
deriving Repr, DecidableEq

/-- `AgentTask` from src/app/agents/types.py (id generation at construction
is outside this model; the id is taken as given). -/
structure AgentTask where
  id : String
  name : String
  description : Option String := none
  parameters : PyDict := []
deriving Repr, DecidableEq

/-- `AgentResult` from src/app/agents/types.py. -/
structure AgentResult where
  task_id : String
  status : AgentStatus
  result : Option PyDict := none
  error : Option String := none
deriving Repr, DecidableEq

/-- The three per-agent maps owned by `Agent` in src/app/agents/base.py. -/
structure AgentState where
  tasks : List (String × AgentTask) := []
  results : List (String × AgentResult) := []
  status : List (String × AgentStatus) := []
deriving Repr, DecidableEq

/-- Outcome of `await self.execute_task(task)`: either a returned
`AgentResult` or a raised exception carrying its message `str(e)`. -/
abbrev ExecOutcome := Except String AgentResult

/-- `Agent.run_task` (src/app/agents/base.py lines 18-33): records the task,
sets status RUNNING, runs `execute_task`; on a normal return stores the
result and sets status COMPLETED, on a raise stores a synthesized failed
result and sets status FAILED; returns the task id. -/
def runTask (st : AgentState) (task : AgentTask) (exec : ExecOutcome) :
    String × AgentState :=
  let st1 : AgentState :=
    { st with
        tasks := dinsert st.tasks task.id task
        status := dinsert st.status task.id AgentStatus.running }
  match exec with
  | Except.ok r =>
      (task.id,
       { st1 with
           results := dinsert st1.results task.id r
           status := dinsert st1.status task.id AgentStatus.completed })
  | Except.error e =>
      (task.id,
       { st1 with
           results := dinsert st1.results task.id
             { task_id := task.id, status := AgentStatus.failed
               result := none, error := some e }
           status := dinsert st1.status task.id AgentStatus.failed })

/-- `Agent.get_result` (src/app/agents/base.py lines 35-45): raises
`ValueError` for an unknown task id; returns the stored result when present;
otherwise synthesizes a result carrying the current status. -/
def getResult (st : AgentState) (task_id : String) :
    Except String AgentResult :=
  if dlookup st.tasks task_id = none then
    Except.error ("Task " ++ task_id ++ " not found")
  else
    match dlookup st.results task_id with
    | some r => Except.ok r
    | none =>
        Except.ok
          { task_id := task_id
            status := (dlookup st.status task_id).getD AgentStatus.idle
            result := none, error := none }

/-- `AgentRegistry` from src/app/agents/registry.py, generic over the agent
payload (only the name key matters for these operations). -/
structure AgentRegistry (α : Type) where
  agents : List (String × α) := []

/-- `AgentRegistry.get`: raises `ValueError` when the name is absent. -/
def AgentRegistry.get {α : Type} (r : AgentRegistry α) (name : String) :
    Except String α :=
  match dlookup r.agents name with
  | none => Except.error ("Agent " ++ name ++ " not found")
  | some a => Except.ok a

/-- `AgentRegistry.register`: `self._agents[agent.name] = agent`. -/
def AgentRegistry.register {α : Type} (r : AgentRegistry α) (name : String)
    (a : α) : AgentRegistry α :=
  { agents := dinsert r.agents name a }

/-- `AgentRegistry.deregister`: `self._agents.pop(name, None)` — returns the
removed agent (or none) together with the registry without that key. -/
def AgentRegistry.deregister {α : Type} (r : AgentRegistry α)
    (name : String) : Option α × AgentRegistry α :=
  (dlookup r.agents name,
   { agents := r.agents.filter (fun p => p.1 ≠ name) })

theorem dlookup_filter_ne {α : Type} (d : List (String × α)) (k : String) :
    dlookup (d.filter (fun p => p.1 ≠ k)) k = none := by
  induction d with
  | nil => rfl
  | cons hd tl ih =>
      obtain ⟨k0, v0⟩ := hd
      by_cases h : k0 = k
      · simpa [h] using ih
      · have hb : (k == k0) = false := beq_eq_false_iff_ne.mpr (Ne.symm h)
        simpa [h, dlookup, List.lookup, hb] using ih

theorem filter_ne_of_dlookup_none {α : Type} (d : List (String × α))
    (k : String) (h : dlookup d k = none) :
    d.filter (fun p => p.1 ≠ k) = d := by
  induction d with
  | nil => rfl
  | cons hd tl ih =>
      obtain ⟨k0, v0⟩ := hd
      by_cases h0 : k0 = k
      · subst h0
        simp only [dlookup, List.lookup, beq_self_eq_true] at h
        exact Option.noConfusion h
      · have hb : (k == k0) = false := beq_eq_false_iff_ne.mpr (Ne.symm h0)
        have h2 : dlookup tl k = none := by
          simpa only [dlookup, List.lookup, hb] using h
        have hp : decide ((k0, v0).1 ≠ k) = true := decide_eq_true h0
        rw [List.filter_cons, if_pos hp, ih h2]

/-! ## Claims about the agent lifecycle (base.py) and registry -/

/-- Example agent state and results used in concrete instances. -/
def exTask : AgentTask := { id := "t0", name := "work" }

def exPartialFailure : AgentResult :=
  { task_id := "t0", status := AgentStatus.failed
    result := some [("partial", JsonVal.num 1)], error := some "step broke" }

/-- C1 (counterexample): `execute_task` returns normally with a Result whose
own status is `failed`, yet `run_task` records `completed` — not `failed` —
in the agent's status map for that task id. -/
theorem run_task_trusts_result_counterexample :
    dlookup (runTask {} exTask (Except.ok exPartialFailure)).2.status "t0" =
        some AgentStatus.completed ∧
      exPartialFailure.status = AgentStatus.failed ∧
      dlookup (runTask {} exTask (Except.ok exPartialFailure)).2.status "t0" ≠
        some AgentStatus.failed := by
  refine ⟨by decide, by decide, by decide⟩

/-- C1 (amended): for every task whose `execute_task` returns normally,
`run_task` stores the returned Result unchanged (so the Result's own status
field — possibly `failed` — is preserved in the results map), but the status
map entry is unconditionally set to `completed`. -/
theorem run_task_stores_result_marks_completed (st : AgentState)
    (t : AgentTask) (r : AgentResult) :
    dlookup (runTask st t (Except.ok r)).2.results t.id = some r ∧
      dlookup (runTask st t (Except.ok r)).2.status t.id =
        some AgentStatus.completed := by
  constructor
  · simp [runTask, dlookup_dinsert_self]
  · simp [runTask, dlookup_dinsert_self]

/-- C6: `run_task` always returns the task's id and never raises (it is a
total function into `String × AgentState`); a fault raised inside
`execute_task` is absorbed: the wrapper stores a synthesized Result with
status `failed` and the fault message as `error`, and sets the status map
entry to `failed`. -/
theorem run_task_total_and_absorbs_faults (st : AgentState) (t : AgentTask)
    (e : ExecOutcome) (msg : String) :
    (runTask st t e).1 = t.id ∧
      dlookup (runTask st t (Except.error msg)).2.results t.id =
        some { task_id := t.id, status := AgentStatus.failed
               result := none, error := some msg } ∧
      dlookup (runTask st t (Except.error msg)).2.status t.id =
        some AgentStatus.failed := by
  refine ⟨?_, ?_, ?_⟩
  · cases e <;> rfl
  · simp [runTask, dlookup_dinsert_self]
  · simp [runTask, dlookup_dinsert_self]

/-- C7: `get_result` fails (with the not-found error) exactly when the task
id is absent from the agent's task map, regardless of other state; when the
task exists but no Result is stored it synthesizes a Result carrying the
current status with no result payload and no error; when a Result is
stored, every call returns exactly that stored Result. -/
theorem get_result_spec (st : AgentState) (id : String) :
    ((getResult st id).toOption = none ↔ dlookup st.tasks id = none) ∧
      (dlookup st.tasks id = none →
        getResult st id = Except.error ("Task " ++ id ++ " not found")) ∧
      (dlookup st.tasks id ≠ none → dlookup st.results id = none →
        getResult st id = Except.ok
          { task_id := id
            status := (dlookup st.status id).getD AgentStatus.idle
            result := none, error := none }) ∧
      (∀ r, dlookup st.tasks id ≠ none → dlookup st.results id = some r →
        getResult st id = Except.ok r) := by
  by_cases h : dlookup st.tasks id = none
  · refine ⟨?_, fun _ => ?_, fun hc _ => absurd h hc, fun r hc _ => absurd h hc⟩
    · simp [getResult, h, Except.toOption]
    · simp [getResult, h]
  · refine ⟨?_, fun hc => absurd hc h, fun _ hr => ?_, fun r _ hr => ?_⟩
    · cases hr : dlookup st.results id <;>
        simp [getResult, h, hr, Except.toOption]
    · simp [getResult, h, hr]
    · simp [getResult, h, hr]

def exState : AgentState :=
  { tasks := [("t0", exTask)]
    results := [("t0", exPartialFailure)]
    status := [("t0", AgentStatus.failed)] }

/-- Witness for C7 at a concrete state: the not-found case, a stored-result
read, and a synthesized in-progress read. -/
theorem get_result_spec_witness :
    getResult exState "missing" = Except.error "Task missing not found" ∧
      getResult exState "t0" = Except.ok exPartialFailure := by
  constructor
  · exact (get_result_spec exState "missing").2.1 (by decide)
  · exact (get_result_spec exState "t0").2.2.2 exPartialFailure
      (by decide) (by decide)

/-- C10: `deregister` is total (never raises); if the name is registered it
returns the previously registered agent and removes the entry, after which
`get` on that name fails with the not-found error; if the name is not
registered it returns `none` and leaves the registry unchanged. -/
theorem deregister_spec {α : Type} (r : AgentRegistry α) (name : String) :
    (∀ a, dlookup r.agents name = some a →
        (r.deregister name).1 = some a ∧
          (r.deregister name).2.get name =
            Except.error ("Agent " ++ name ++ " not found")) ∧
      (dlookup r.agents name = none →
        (r.deregister name).1 = none ∧ (r.deregister name).2 = r) := by
  constructor
  · intro a ha
    refine ⟨ha, ?_⟩
    simp only [AgentRegistry.deregister, AgentRegistry.get]
    rw [dlookup_filter_ne r.agents name]
  · intro h
    refine ⟨h, ?_⟩
    simp only [AgentRegistry.deregister]
    rw [filter_ne_of_dlookup_none r.agents name h]

def exRegistry : AgentRegistry Nat := { agents := [("calc", 7)] }

/-- Witness for C10 on a concrete registry: removing a registered name and
removing an unknown name. -/
theorem deregister_spec_witness :
    ((exRegistry.deregister "calc").1 = some 7 ∧
        (exRegistry.deregister "calc").2.get "calc" =
          Except.error "Agent calc not found") ∧
      ((exRegistry.deregister "other").1 = none ∧
        (exRegistry.deregister "other").2 = exRegistry) := by
  constructor
  · exact (deregister_spec exRegistry "calc").1 7 (by decide)
  · exact (deregister_spec exRegistry "other").2 (by decide)

/-! ## Python string primitives and `json.loads`

`pySplit` models `str.split(sep)` (non-overlapping, left to right),
`pyStrip` models `str.strip()` (ASCII whitespace), and `jsonParse` models
`json.loads` over the JSON fragment these components exercise (integer
numerals; non-integer numbers are outside the modelled fragment).  All are
fuel/structural recursions so concrete runs reduce in the kernel. -/

def isWsChar (c : Char) : Bool :=
  c == ' ' || c == '\t' || c == '\n' || c == '\r'

def dropWs : List Char → List Char
  | [] => []
  | c :: cs => if isWsChar c then dropWs cs else c :: cs

def pyStrip (s : String) : String :=
  String.mk (((dropWs s.data).reverse |> dropWs).reverse)

def isPrefixList : List Char → List Char → Bool
  | [], _ => true
  | _ :: _, [] => false
  | p :: ps, c :: cs => p == c && isPrefixList ps cs

def splitAux (sep : List Char) : Nat → List Char → List Char →
    List String → List String
  | 0, _, cur, acc => String.mk cur.reverse :: acc
  | _ + 1, [], cur, acc => String.mk cur.reverse :: acc
  | f + 1, c :: rest, cur, acc =>
      if isPrefixList sep (c :: rest) then
        splitAux sep f (List.drop sep.length (c :: rest)) []
          (String.mk cur.reverse :: acc)
      else splitAux sep f rest (c :: cur) acc

/-- Python `s.split(sep)` for a non-empty separator. -/
def pySplit (s sep : String) : List String :=
  if sep.data.isEmpty then [s]
  else (splitAux sep.data (s.data.length + 1) s.data [] []).reverse

def hexVal (c : Char) : Option Nat :=
  if '0' ≤ c ∧ c ≤ '9' then some (c.toNat - '0'.toNat)
  else if 'a' ≤ c ∧ c ≤ 'f' then some (c.toNat - 'a'.toNat + 10)
  else if 'A' ≤ c ∧ c ≤ 'F' then some (c.toNat - 'A'.toNat + 10)
  else none

def parseStringBody : List Char → List Char → Option (String × List Char)
  | [], _ => none
  | '"' :: rest, acc => some (String.mk acc.reverse, rest)
  | '\\' :: cs, acc =>
      match cs with
      | [] => none
      | 'u' :: h1 :: h2 :: h3 :: h4 :: rest =>
          match hexVal h1, hexVal h2, hexVal h3, hexVal h4 with
          | some a, some b, some c, some d =>
              parseStringBody rest
                (Char.ofNat (((a * 16 + b) * 16 + c) * 16 + d) :: acc)
          | _, _, _, _ => none
      | e :: rest =>
          if e = '"' then parseStringBody rest ('"' :: acc)
          else if e = '\\' then parseStringBody rest ('\\' :: acc)
          else if e = '/' then parseStringBody rest ('/' :: acc)
          else if e = 'b' then parseStringBody rest ('\x08' :: acc)
          else if e = 'f' then parseStringBody rest ('\x0c' :: acc)
          else if e = 'n' then parseStringBody rest ('\n' :: acc)
          else if e = 'r' then parseStringBody rest ('\r' :: acc)
          else if e = 't' then parseStringBody rest ('\t' :: acc)
          else none
  | c :: rest, acc =>
      if c.toNat < 32 then none else parseStringBody rest (c :: acc)

def digitsVal : List Char → Nat → Nat × List Char
  | [], acc => (acc, [])
  | c :: rest, acc =>
      if '0' ≤ c ∧ c ≤ '9' then digitsVal rest (acc * 10 + (c.toNat - '0'.toNat))
      else (acc, c :: rest)

/-- JSON integer numeral: optional minus, `0` or a nonzero-led digit run;
a following `.`/`e`/`E` (non-integer numeral) is outside the model. -/
def parseIntNum (cs : List Char) : Option (Int × List Char) :=
  let core : List Char → Option (Nat × List Char) := fun ds =>
    match ds with
    | [] => none
    | '0' :: rest =>
        match rest with
        | c :: _ => if '0' ≤ c ∧ c ≤ '9' then none else some (0, rest)
        | [] => some (0, [])
    | c :: rest =>
        if '1' ≤ c ∧ c ≤ '9' then
          some (digitsVal rest (c.toNat - '0'.toNat))
        else none
  match cs with
  | '-' :: rest =>
      match core rest with
      | some (n, r) => some (-(n : Int), r)
      | none => none
  | _ =>
      match core cs with
      | some (n, r) => some ((n : Int), r)
      | none => none

mutual

def parseVal : Nat → List Char → Option (JsonVal × List Char)
  | 0, _ => none
  | f + 1, cs =>
      match dropWs cs with
      | 'n' :: 'u' :: 'l' :: 'l' :: r => some (JsonVal.null, r)
      | 't' :: 'r' :: 'u' :: 'e' :: r => some (JsonVal.bool true, r)
      | 'f' :: 'a' :: 'l' :: 's' :: 'e' :: r => some (JsonVal.bool false, r)
      | '"' :: r =>
          match parseStringBody r [] with
          | some (s, r2) => some (JsonVal.str s, r2)
          | none => none
      | '\x7b' :: r => parseObjBody f r
      | '[' :: r => parseArrBody f r
      | cs2 =>
          match parseIntNum cs2 with
          | some (n, r) => some (JsonVal.num n, r)
          | none => none

def parseObjBody : Nat → List Char → Option (JsonVal × List Char)
  | 0, _ => none
  | f + 1, cs =>
      match dropWs cs with
      | '\x7d' :: r => some (JsonVal.obj [], r)
      | cs2 =>
          match parseObjItems f cs2 with
          | some (fields, r) => some (JsonVal.obj fields, r)
          | none => none

def parseObjItems : Nat →
    List Char → Option (List (String × JsonVal) × List Char)
  | 0, _ => none
  | f + 1, cs =>
      match dropWs cs with
      | '"' :: r =>
          match parseStringBody r [] with
          | some (k, r2) =>
              match dropWs r2 with
              | ':' :: r3 =>
                  match parseVal f r3 with
                  | some (v, r4) =>
                      match dropWs r4 with
                      | '\x7d' :: r5 => some ([(k, v)], r5)
                      | ',' :: r5 =>
                          match parseObjItems f r5 with
                          | some (fields, r6) => some ((k, v) :: fields, r6)
                          | none => none
                      | _ => none
                  | none => none
              | _ => none
          | none => none
      | _ => none

def parseArrBody : Nat → List Char → Option (JsonVal × List Char)
  | 0, _ => none
  | f + 1, cs =>
      match dropWs cs with
      | ']' :: r => some (JsonVal.arr [], r)
      | cs2 =>
          match parseArrItems f cs2 with
          | some (items, r) => some (JsonVal.arr items, r)
          | none => none

def parseArrItems : Nat → List Char → Option (List JsonVal × List Char)
  | 0, _ => none
  | f + 1, cs =>
      match parseVal f cs with
      | some (v, r) =>
          match dropWs r with
          | ']' :: r2 => some ([v], r2)
          | ',' :: r2 =>
              match parseArrItems f r2 with
              | some (items, r3) => some (v :: items, r3)
              | none => none
          | _ => none
      | none => none

end

/-- `json.loads`: parse one JSON value, require only whitespace after it. -/
def jsonParse (s : String) : Except String JsonVal :=
  match parseVal (2 * s.data.length + 8) s.data with
  | none => Except.error "Expecting value"
  | some (v, rest) =>
      if (dropWs rest).isEmpty then Except.ok v
      else Except.error "Extra data"

/-! ## The structured-output extractor
(`OllamaClient.generate_structured`, lines 124-164) -/

/-- First element of the list (odd indices 1, 3, 5, … of the original),
the spans lying inside single-backtick delimiters. -/
def oddIdx {α : Type} : List α → List α
  | [] => []
  | [_] => []
  | _ :: b :: rest => b :: oddIdx rest

/-- `for s in l: try: return json.loads(s) except: continue` — first
candidate that parses, skipping failures. -/
def firstParse : List String → Option JsonVal
  | [] => none
  | s :: rest =>
      match jsonParse s with
      | Except.ok v => some v
      | Except.error _ => firstParse rest

/-- The regex `\x7b[^\x7b\x7d]*(?:\x7b[^\x7b\x7d]*\x7d[^\x7b\x7d]*)*\x7d`
is matched deterministically: braces cannot be consumed by the character
classes, so backtracking never changes the outcome. -/
def nonBraceSpan (cs : List Char) : List Char × List Char :=
  cs.span (fun c => !(c == '\x7b' || c == '\x7d'))

def matchGroups : Nat → List Char → Option (List Char × List Char)
  | 0, _ => none
  | f + 1, cs =>
      match cs with
      | [] => none
      | c :: rest =>
          if c = '\x7d' then some (['\x7d'], rest)
          else if c = '\x7b' then
            match (nonBraceSpan rest).2 with
            | [] => none
            | c1 :: r2 =>
                if c1 = '\x7d' then
                  match matchGroups f (nonBraceSpan r2).2 with
                  | some (g, r4) =>
                      some ('\x7b' :: ((nonBraceSpan rest).1 ++ '\x7d' ::
                        ((nonBraceSpan r2).1 ++ g)), r4)
                  | none => none
                else none
          else none

/-- One attempted match of the regex at the head of `cs`. -/
def matchJsonObj (cs : List Char) : Option (List Char × List Char) :=
  match cs with
  | [] => none
  | c :: rest =>
      if c = '\x7b' then
        match matchGroups ((nonBraceSpan rest).2.length + 1)
            (nonBraceSpan rest).2 with
        | some (g, r2) => some ('\x7b' :: ((nonBraceSpan rest).1 ++ g), r2)
        | none => none
      else none

def findAllAux : Nat → List Char → List String
  | 0, _ => []
  | _ + 1, [] => []
  | f + 1, c :: rest =>
      if c = '\x7b' then
        match matchJsonObj (c :: rest) with
        | some (m, r) => String.mk m :: findAllAux f r
        | none => findAllAux f rest
      else findAllAux f rest

/-- `re.findall(json_pattern, text)`: scan left to right, resuming after
each match. -/
def findAllJsonish (text : String) : List String :=
  findAllAux (text.data.length + 1) text.data

/-- The strategy-5 sentinel
`\x7b"error": "Could not parse JSON", "raw_response": text\x7d`. -/
def couldNotParse (raw : String) : JsonVal :=
  JsonVal.obj [("error", JsonVal.str "Could not parse JSON"),
               ("raw_response", JsonVal.str raw)]

/-- The `except Exception` sentinel
`\x7b"error": f"JSON parsing error: ...", "raw_response": text\x7d`. -/
def parseErrSentinel (msg raw : String) : JsonVal :=
  JsonVal.obj [("error", JsonVal.str ("JSON parsing error: " ++ msg)),
               ("raw_response", JsonVal.str raw)]

def hasFence (t : String) : Bool := (pySplit t "```json").length > 1

def fenceContent (t : String) : String :=
  pyStrip (((pySplit ((pySplit t "```json").getD 1 "") "```").getD 0 ""))

/-- The JSON-extraction tail of `generate_structured` (lines 124-164):
whole-text parse; ```json fence (whose parse failure escapes to the
`except Exception` handler); odd single-backtick spans skipping failures;
regex candidates skipping failures; final sentinel. -/
def extractJson (text : String) : JsonVal :=
  match jsonParse text with
  | Except.ok v => v
  | Except.error _ =>
      if hasFence text then
        match jsonParse (fenceContent text) with
        | Except.ok v => v
        | Except.error msg => parseErrSentinel msg text
      else
        match firstParse (oddIdx (pySplit text "`")) with
        | some v => v
        | none =>
            match firstParse (findAllJsonish text) with
            | some v => v
            | none => couldNotParse text

/-! ## Claims about the extractor (C3, C4, C5) -/

def exC3 : String := "```json\nnope\n``` `\x7b\"a\": 1\x7d`"

/-- C3 (counterexample): a text whose ```json fence holds invalid JSON while
a later single-backtick span holds valid JSON.  Strategy 3 would succeed,
but extraction ends at strategy 2 with the `JSON parsing error` sentinel:
the fence failure is not followed by an attempt at the next strategy. -/
theorem extract_fence_failure_counterexample :
    extractJson exC3 = parseErrSentinel "Expecting value" exC3 ∧
      firstParse (oddIdx (pySplit exC3 "`")) =
        some (JsonVal.obj [("a", JsonVal.num 1)]) ∧
      extractJson exC3 ≠ JsonVal.obj [("a", JsonVal.num 1)] := by
  refine ⟨by decide, by decide, by decide⟩

/-- C3 (amended): the extractor attempts its strategies strictly in order,
returning on the first success — (1) whole text; (2) the ```json fence when
present, whose parse failure however ends extraction with the
`JSON parsing error` sentinel instead of attempting strategy 3; (3) the
odd-indexed single-backtick spans, skipping spans that fail to parse;
(4) the balanced-brace candidates; (5) the sentinel. -/
theorem extract_strategy_chain (t s : String) (rest : List String) :
    (∀ v, jsonParse t = Except.ok v → extractJson t = v) ∧
      ((jsonParse t).toOption = none → hasFence t = true →
        ∀ msg, jsonParse (fenceContent t) = Except.error msg →
          extractJson t = parseErrSentinel msg t) ∧
      ((jsonParse s).toOption = none →
        firstParse (s :: rest) = firstParse rest) ∧
      (∀ v, jsonParse s = Except.ok v → firstParse (s :: rest) = some v) ∧
      ((jsonParse t).toOption = none → hasFence t = false →
        ∀ v, firstParse (oddIdx (pySplit t "`")) = some v →
          extractJson t = v) ∧
      ((jsonParse t).toOption = none → hasFence t = false →
        firstParse (oddIdx (pySplit t "`")) = none →
          extractJson t =
            match firstParse (findAllJsonish t) with
            | some v => v
            | none => couldNotParse t) := by
  refine ⟨?_, ?_, ?_, ?_, ?_, ?_⟩
  · intro v h
    simp [extractJson, h]
  · intro h1 h2 msg h3
    cases hp : jsonParse t with
    | ok v => rw [hp] at h1; exact Option.noConfusion h1
    | error e => simp [extractJson, hp, h2, h3]
  · intro h
    cases hp : jsonParse s with
    | ok v => rw [hp] at h; exact Option.noConfusion h
    | error e => simp [firstParse, hp]
  · intro v h
    simp [firstParse, h]
  · intro h1 h2 v h3
    cases hp : jsonParse t with
    | ok w => rw [hp] at h1; exact Option.noConfusion h1
    | error e => simp [extractJson, hp, h2, h3]
  · intro h1 h2 h3
    cases hp : jsonParse t with
    | ok w => rw [hp] at h1; exact Option.noConfusion h1
    | error e => simp [extractJson, hp, h2, h3]

/-- Witness for C3's amended chain: the fence-abort case and the skipping
of a failing backtick span, at concrete inputs. -/
theorem extract_strategy_chain_witness :
    extractJson "```json\nx\n```" =
        parseErrSentinel "Expecting value" "```json\nx\n```" ∧
      firstParse ["bad", "true"] = firstParse ["true"] := by
  have h := extract_strategy_chain "```json\nx\n```" "bad" ["true"]
  exact ⟨h.2.1 (by decide) (by decide) "Expecting value" (by decide),
    h.2.2.1 (by decide)⟩

/-! ### Brace-nesting bound of the strategy-4 scan (C4) -/

/-- Scan a candidate: current brace depth and maximum reached; `none` when
a closing brace has no opening partner.  A candidate `m` is a balanced
brace string of maximum depth `mx` iff `braceScore m 0 0 = some mx`. -/
def braceScore : List Char → Nat → Nat → Option Nat
  | [], d, mx => if d = 0 then some mx else none
  | c :: rest, d, mx =>
      if c = '\x7b' then braceScore rest (d + 1) (max mx (d + 1))
      else if c = '\x7d' then
        if d = 0 then none else braceScore rest (d - 1) mx
      else braceScore rest d mx

/-- Balanced, with braces nested at most one level inside the object. -/
def braceDepthOk (s : String) : Bool :=
  match braceScore s.data 0 0 with
  | some mx => decide (mx ≤ 2)
  | none => false

theorem braceScore_append_nonbrace (a : List Char)
    (ha : ∀ c ∈ a, (c == '\x7b' || c == '\x7d') = false) (rest : List Char)
    (d mx : Nat) : braceScore (a ++ rest) d mx = braceScore rest d mx := by
  induction a generalizing d mx with
  | nil => rfl
  | cons c a2 ih =>
      have hc := ha c (List.mem_cons_self c a2)
      rw [Bool.or_eq_false_iff] at hc
      have hc1 : ¬(c = '\x7b') := by
        intro h; rw [h] at hc; simp at hc
      have hc2 : ¬(c = '\x7d') := by
        intro h; rw [h] at hc; simp at hc
      rw [List.cons_append, braceScore, if_neg hc1, if_neg hc2]
      exact ih (fun c2 hm => ha c2 (List.mem_cons_of_mem c hm)) d mx

theorem nonBraceSpan_fst_nonbrace (cs : List Char) :
    ∀ c ∈ (nonBraceSpan cs).1, (c == '\x7b' || c == '\x7d') = false := by
  intro c hc
  rw [nonBraceSpan, List.span_eq_take_drop] at hc
  have := List.mem_takeWhile_imp hc
  simpa using this

theorem matchGroups_score (f : Nat) :
    ∀ cs g r, matchGroups f cs = some (g, r) →
      ∀ tail mx, 1 ≤ mx →
        ∃ mx2, braceScore (g ++ tail) 1 mx = braceScore tail 0 mx2 ∧
          mx2 ≤ max mx 2 := by
  induction f with
  | zero => intro cs g r h; exact Option.noConfusion h
  | succ f ih =>
      intro cs g r h tail mx hmx
      cases cs with
      | nil => exact Option.noConfusion h
      | cons c rest =>
          simp only [matchGroups] at h
          by_cases hc : c = '\x7d'
          · rw [if_pos hc] at h
            have h1 := Option.some.inj h
            have hg : g = ['\x7d'] := (congrArg Prod.fst h1).symm
            refine ⟨mx, ?_, Nat.le_max_left mx 2⟩
            rw [hg]
            have hne : ('\x7d' : Char) ≠ '\x7b' := by decide
            rw [List.cons_append, braceScore, if_neg hne, if_pos rfl,
              if_neg one_ne_zero, List.nil_append]
          · rw [if_neg hc] at h
            by_cases hb : c = '\x7b'
            · rw [if_pos hb] at h
              cases hsp : (nonBraceSpan rest).2 with
              | nil => rw [hsp] at h; exact Option.noConfusion h
              | cons c1 r2 =>
                  rw [hsp] at h
                  simp only [] at h
                  by_cases hc1 : c1 = '\x7d'
                  · rw [if_pos hc1] at h
                    cases hmg : matchGroups f (nonBraceSpan r2).2 with
                    | none => rw [hmg] at h; exact Option.noConfusion h
                    | some pr =>
                        obtain ⟨g0, r4⟩ := pr
                        rw [hmg] at h
                        have h1 := Option.some.inj h
                        have hg : g = '\x7b' :: ((nonBraceSpan rest).1 ++
                            '\x7d' :: ((nonBraceSpan r2).1 ++ g0)) :=
                          (congrArg Prod.fst h1).symm
                        obtain ⟨mx2, hsc, hle⟩ := ih (nonBraceSpan r2).2 g0 r4
                          hmg tail (max mx 2)
                          (le_trans hmx (Nat.le_max_left _ _))
                        refine ⟨mx2, ?_, ?_⟩
                        · rw [hg, List.cons_append, braceScore, if_pos rfl,
                            List.append_assoc,
                            braceScore_append_nonbrace (nonBraceSpan rest).1
                              (nonBraceSpan_fst_nonbrace rest)]
                          have hne : ('\x7d' : Char) ≠ '\x7b' := by decide
                          rw [List.cons_append, braceScore, if_neg hne,
                            if_pos rfl,
                            if_neg (by norm_num : (1 + 1 : Nat) ≠ 0),
                            List.append_assoc,
                            braceScore_append_nonbrace (nonBraceSpan r2).1
                              (nonBraceSpan_fst_nonbrace r2)]
                          show braceScore (g0 ++ tail) 1 (max mx 2) =
                            braceScore tail 0 mx2
                          exact hsc
                        · calc mx2 ≤ max (max mx 2) 2 := hle
                            _ = max mx 2 := by rw [max_assoc, max_self]
                  · rw [if_neg hc1] at h; exact Option.noConfusion h
            · rw [if_neg hb] at h; exact Option.noConfusion h

theorem matchJsonObj_depthOk (cs m r : List Char)
    (h : matchJsonObj cs = some (m, r)) :
    braceDepthOk (String.mk m) = true := by
  cases cs with
  | nil => exact Option.noConfusion h
  | cons c rest =>
      simp only [matchJsonObj] at h
      by_cases hb : c = '\x7b'
      · rw [if_pos hb] at h
        cases hmg : matchGroups ((nonBraceSpan rest).2.length + 1)
            (nonBraceSpan rest).2 with
        | none => rw [hmg] at h; exact Option.noConfusion h
        | some pr =>
            obtain ⟨g, r2⟩ := pr
            rw [hmg] at h
            have h1 := Option.some.inj h
            have hm : m = '\x7b' :: ((nonBraceSpan rest).1 ++ g) :=
              (congrArg Prod.fst h1).symm
            obtain ⟨mx2, hsc, hle⟩ := matchGroups_score _ _ _ _ hmg [] 1
              Nat.le.refl
            have hs : braceScore m 0 0 = some mx2 := by
              rw [hm, braceScore, if_pos rfl,
                braceScore_append_nonbrace (nonBraceSpan rest).1
                  (nonBraceSpan_fst_nonbrace rest)]
              have hg2 : braceScore (g ++ []) 1 1 = braceScore [] 0 mx2 := hsc
              rw [List.append_nil] at hg2
              show braceScore g 1 1 = some mx2
              rw [hg2, braceScore, if_pos rfl]
            unfold braceDepthOk
            show (match braceScore m 0 0 with
              | some mx => decide (mx ≤ 2)
              | none => false) = true
            rw [hs]
            show decide (mx2 ≤ 2) = true
            exact decide_eq_true hle
      · rw [if_neg hb] at h; exact Option.noConfusion h

theorem findAllAux_depthOk (f : Nat) :
    ∀ cs m, m ∈ findAllAux f cs → braceDepthOk m = true := by
  induction f with
  | zero => intro cs m h; exact absurd h (List.not_mem_nil m)
  | succ f ih =>
      intro cs m h
      cases cs with
      | nil => exact absurd h (List.not_mem_nil m)
      | cons c rest =>
          rw [findAllAux] at h
          by_cases hc : c = '\x7b'
          · rw [if_pos hc] at h
            cases hm : matchJsonObj (c :: rest) with
            | none =>
                rw [hm] at h
                exact ih rest m h
            | some pr =>
                obtain ⟨m0, r⟩ := pr
                rw [hm] at h
                rcases List.mem_cons.mp h with h1 | h1
                · rw [h1]
                  exact matchJsonObj_depthOk (c :: rest) m0 r hm
                · exact ih r m h1
          · rw [if_neg hc] at h
            exact ih rest m h

def exC4 : String := "The result is \x7b\"a\": \x7b\"b\": \x7b\"c\": 1\x7d\x7d\x7d here"

def exC4full : JsonVal :=
  JsonVal.obj [("a", JsonVal.obj [("b", JsonVal.obj [("c", JsonVal.num 1)])])]

/-- C4 (counterexample): a syntactically valid JSON object of brace depth 3
embedded in prose.  The strategy-4 scan does not find it whole: the
extractor returns an inner depth-2 fragment instead. -/
theorem extract_depth_counterexample :
    jsonParse "\x7b\"a\": \x7b\"b\": \x7b\"c\": 1\x7d\x7d\x7d" =
        Except.ok exC4full ∧
      findAllJsonish exC4 = ["\x7b\"b\": \x7b\"c\": 1\x7d\x7d"] ∧
      extractJson exC4 = JsonVal.obj [("b", JsonVal.obj [("c", JsonVal.num 1)])] ∧
      extractJson exC4 ≠ exC4full := by
  refine ⟨by decide, by decide, by decide, by decide⟩

/-- C4 (amended): every candidate produced by the strategy-4 scan is a
balanced brace string whose braces nest at most one level inside the
object (maximum depth 2); the scan is not a full balanced-brace matcher,
so objects of greater depth are never candidates in their own right. -/
theorem findall_candidates_depth_bounded (t : String) (m : String)
    (h : m ∈ findAllJsonish t) : braceDepthOk m = true :=
  findAllAux_depthOk (t.data.length + 1) t.data m h

/-- Witness for C4's depth bound at a concrete scan result. -/
theorem findall_candidates_depth_bounded_witness :
    "\x7b\"b\": \x7b\"c\": 1\x7d\x7d" ∈ findAllJsonish exC4 ∧
      braceDepthOk "\x7b\"b\": \x7b\"c\": 1\x7d\x7d" = true := by
  refine ⟨by decide, ?_⟩
  exact findall_candidates_depth_bounded exC4 "\x7b\"b\": \x7b\"c\": 1\x7d\x7d"
    (by decide)

def exC5 : String := "```json\nhello\n```"

/-- C5 (counterexample): a text with no parseable JSON under any strategy
that nevertheless does not produce the `Could not parse JSON` sentinel:
because it contains a ```json fence with unparseable content, the returned
sentinel's error is `JSON parsing error: …` instead. -/
theorem extract_total_failure_counterexample :
    (jsonParse exC5).toOption = none ∧
      (jsonParse (fenceContent exC5)).toOption = none ∧
      firstParse (oddIdx (pySplit exC5 "`")) = none ∧
      firstParse (findAllJsonish exC5) = none ∧
      extractJson exC5 = parseErrSentinel "Expecting value" exC5 ∧
      extractJson exC5 ≠ couldNotParse exC5 := by
  refine ⟨by decide, by decide, by decide, by decide, by decide, by decide⟩

/-- Field read on the sentinel mappings. -/
def rawResponseOf (v : JsonVal) : Option JsonVal :=
  match v with
  | JsonVal.obj fs => dlookup fs "raw_response"
  | _ => none

/-- C5 (amended): on total parse failure the extractor never raises and
returns a sentinel mapping that preserves the original text verbatim under
`raw_response`; the error field is exactly `Could not parse JSON` when no
```json fence is present, and `JSON parsing error: …` when a fence is
present (whose content then failed to parse). -/
theorem extract_total_failure_spec (t : String)
    (h1 : (jsonParse t).toOption = none)
    (h2 : firstParse (oddIdx (pySplit t "`")) = none)
    (h3 : firstParse (findAllJsonish t) = none)
    (h4 : hasFence t = true → (jsonParse (fenceContent t)).toOption = none) :
    (hasFence t = false → extractJson t = couldNotParse t) ∧
      (∀ msg, hasFence t = true →
        jsonParse (fenceContent t) = Except.error msg →
          extractJson t = parseErrSentinel msg t) ∧
      rawResponseOf (extractJson t) = some (JsonVal.str t) := by
  have hwhole : ∃ e, jsonParse t = Except.error e := by
    cases hp : jsonParse t with
    | ok v => rw [hp] at h1; exact Option.noConfusion h1
    | error e => exact ⟨e, rfl⟩
  obtain ⟨e, hp⟩ := hwhole
  refine ⟨?_, ?_, ?_⟩
  · intro hf
    simp [extractJson, hp, hf, h2, h3]
  · intro msg hf hfc
    simp [extractJson, hp, hf, hfc]
  · by_cases hf : hasFence t
    · have := h4 hf
      have hfc : ∃ e2, jsonParse (fenceContent t) = Except.error e2 := by
        cases hq : jsonParse (fenceContent t) with
        | ok v => rw [hq] at this; exact Option.noConfusion this
        | error e2 => exact ⟨e2, rfl⟩
      obtain ⟨e2, hq⟩ := hfc
      have hex : extractJson t = parseErrSentinel e2 t := by
        simp [extractJson, hp, hf, hq]
      rw [hex]
      simp [rawResponseOf, parseErrSentinel, dlookup, List.lookup]
    · have hf2 : hasFence t = false := by simpa using hf
      have hex : extractJson t = couldNotParse t := by
        simp [extractJson, hp, hf2, h2, h3]
      rw [hex]
      simp [rawResponseOf, couldNotParse, dlookup, List.lookup]

/-- Witness for C5's amended statement: a fence-free text with no JSON
yields exactly the `Could not parse JSON` sentinel. -/
theorem extract_total_failure_spec_witness :
    extractJson "no json here at all" = couldNotParse "no json here at all" := by
  exact (extract_total_failure_spec "no json here at all" (by decide)
    (by decide) (by decide) (by decide)).1 (by decide)

/-! ## Status-transition traces (C8)

`run_task` touches the maps at two points separated by the `await` of
`execute_task`: lines 20-21 record the task and set RUNNING, lines 23-31
store the outcome and the terminal status.  A trace op is one of these two
phases or a read (`get_result`), so interleavings of concurrently running
tasks are covered. -/

inductive AgentOp where
  | runStart (t : AgentTask)
  | runFinish (id : String) (outcome : ExecOutcome)
  | query (id : String)

/-- Effect of one trace op on the agent's maps (`query` reads only). -/
def applyOp (st : AgentState) : AgentOp → AgentState
  | AgentOp.runStart t =>
      { st with
          tasks := dinsert st.tasks t.id t
          status := dinsert st.status t.id AgentStatus.running }
  | AgentOp.runFinish id (Except.ok r) =>
      { st with
          results := dinsert st.results id r
          status := dinsert st.status id AgentStatus.completed }
  | AgentOp.runFinish id (Except.error e) =>
      { st with
          results := dinsert st.results id
            { task_id := id, status := AgentStatus.failed
              result := none, error := some e }
          status := dinsert st.status id AgentStatus.failed }
  | AgentOp.query _ => st

/-- The two phases of one `run_task` compose to exactly `runTask`. -/
theorem applyOp_runStart_runFinish (st : AgentState) (t : AgentTask)
    (e : ExecOutcome) :
    applyOp (applyOp st (AgentOp.runStart t)) (AgentOp.runFinish t.id e) =
      (runTask st t e).2 := by
  cases e <;> rfl

/-- Validity of one op: `runStart` only for a task id not yet submitted
(the claim's "distinct task ids"), `runFinish` only for a task currently
running (each submitted task finishes exactly once, after its start). -/
def opOk (st : AgentState) : AgentOp → Bool
  | AgentOp.runStart t => (dlookup st.tasks t.id).isNone
  | AgentOp.runFinish id _ =>
      dlookup st.status id == some AgentStatus.running
  | AgentOp.query _ => true

def wfFrom (st : AgentState) : List AgentOp → Bool
  | [] => true
  | op :: rest => opOk st op && wfFrom (applyOp st op) rest

/-- Observable position of a status in the lifecycle order
idle → running → {completed, failed}. -/
def statusRank : Option AgentStatus → Nat
  | none => 0
  | some AgentStatus.idle => 0
  | some AgentStatus.running => 1
  | some AgentStatus.completed => 2
  | some AgentStatus.failed => 2

def isTerminal : Option AgentStatus → Bool
  | some AgentStatus.completed => true
  | some AgentStatus.failed => true
  | _ => false

/-- Reachability invariant: a task id absent from `tasks` has no status
entry, and a submitted task is never idle (its status is RUNNING or
terminal). -/
def StInv (st : AgentState) : Prop :=
  ∀ id : String,
    (dlookup st.tasks id = none → dlookup st.status id = none) ∧
      (dlookup st.tasks id ≠ none →
        1 ≤ statusRank (dlookup st.status id))

theorem stInv_empty : StInv {} := by
  intro id
  exact ⟨fun _ => rfl, fun h => absurd rfl h⟩

theorem stInv_step (st : AgentState) (op : AgentOp) (hinv : StInv st)
    (hok : opOk st op = true) : StInv (applyOp st op) := by
  intro id
  cases op with
  | runStart t =>
      by_cases hid : id = t.id
      · subst hid
        constructor
        · intro h
          simp only [applyOp] at h
          rw [dlookup_dinsert_self] at h
          exact Option.noConfusion h
        · intro _
          simp [applyOp, dlookup_dinsert_self, statusRank]
      · have h1 := dlookup_dinsert_other st.tasks t.id id t hid
        have h2 :=
          dlookup_dinsert_other st.status t.id id AgentStatus.running hid
        constructor
        · intro h
          rw [applyOp] at h ⊢
          rw [h1] at h
          rw [h2]
          exact (hinv id).1 h
        · intro h
          rw [applyOp] at h ⊢
          rw [h1] at h
          rw [h2]
          exact (hinv id).2 h
  | runFinish fid outcome =>
      have hrun : dlookup st.status fid = some AgentStatus.running := by
        simpa [opOk] using hok
      have htask : dlookup st.tasks fid ≠ none := by
        intro h
        rw [(hinv fid).1 h] at hrun
        exact Option.noConfusion hrun
      by_cases hid : id = fid
      · subst hid
        cases outcome with
        | ok r =>
            exact ⟨fun h => absurd h htask,
              fun _ => by simp [applyOp, dlookup_dinsert_self, statusRank]⟩
        | error e =>
            exact ⟨fun h => absurd h htask,
              fun _ => by simp [applyOp, dlookup_dinsert_self, statusRank]⟩
      · cases outcome with
        | ok r =>
            have h2 := dlookup_dinsert_other st.status fid id
              AgentStatus.completed hid
            exact ⟨fun h => by rw [applyOp] at h ⊢; rw [h2]; exact (hinv id).1 h,
              fun h => by rw [applyOp] at h ⊢; rw [h2]; exact (hinv id).2 h⟩
        | error e =>
            have h2 := dlookup_dinsert_other st.status fid id
              AgentStatus.failed hid
            exact ⟨fun h => by rw [applyOp] at h ⊢; rw [h2]; exact (hinv id).1 h,
              fun h => by rw [applyOp] at h ⊢; rw [h2]; exact (hinv id).2 h⟩
  | query _ => exact hinv id

theorem status_step_mono (st : AgentState) (op : AgentOp) (hinv : StInv st)
    (hok : opOk st op = true) (id : String) :
    statusRank (dlookup st.status id) ≤
        statusRank (dlookup (applyOp st op).status id) ∧
      (isTerminal (dlookup st.status id) = true →
        dlookup (applyOp st op).status id = dlookup st.status id) := by
  cases op with
  | runStart t =>
      by_cases hid : id = t.id
      · subst hid
        have hfresh : dlookup st.tasks t.id = none := by
          simpa [opOk, Option.isNone_iff_eq_none] using hok
        have h0 := (hinv t.id).1 hfresh
        rw [applyOp]
        constructor
        · rw [h0, dlookup_dinsert_self]
          exact Nat.zero_le _
        · intro hterm
          rw [h0] at hterm
          exact Bool.noConfusion hterm
      · have h2 :=
          dlookup_dinsert_other st.status t.id id AgentStatus.running hid
        rw [applyOp]
        exact ⟨by rw [h2], fun _ => by rw [h2]⟩
  | runFinish fid outcome =>
      have hrun : dlookup st.status fid = some AgentStatus.running := by
        simpa [opOk] using hok
      by_cases hid : id = fid
      · subst hid
        cases outcome with
        | ok r =>
            rw [applyOp]
            constructor
            · rw [hrun, dlookup_dinsert_self]
              exact Nat.le_of_lt (by simp [statusRank])
            · intro hterm
              rw [hrun] at hterm
              exact Bool.noConfusion hterm
        | error e =>
            rw [applyOp]
            constructor
            · rw [hrun, dlookup_dinsert_self]
              exact Nat.le_of_lt (by simp [statusRank])
            · intro hterm
              rw [hrun] at hterm
              exact Bool.noConfusion hterm
      · cases outcome with
        | ok r =>
            have h2 := dlookup_dinsert_other st.status fid id
              AgentStatus.completed hid
            rw [applyOp]
            exact ⟨by rw [h2], fun _ => by rw [h2]⟩
        | error e =>
            have h2 := dlookup_dinsert_other st.status fid id
              AgentStatus.failed hid
            rw [applyOp]
            exact ⟨by rw [h2], fun _ => by rw [h2]⟩
  | query _ => exact ⟨Nat.le.refl, fun _ => rfl⟩

theorem stInv_fold (st : AgentState) (l : List AgentOp) (hinv : StInv st)
    (hwf : wfFrom st l = true) : StInv (l.foldl applyOp st) := by
  induction l generalizing st with
  | nil => exact hinv
  | cons op rest ih =>
      rw [wfFrom, Bool.and_eq_true] at hwf
      exact ih (applyOp st op) (stInv_step st op hinv hwf.1) hwf.2

theorem status_fold_mono (st : AgentState) (l : List AgentOp)
    (hinv : StInv st) (hwf : wfFrom st l = true) (id : String) :
    statusRank (dlookup st.status id) ≤
        statusRank (dlookup (l.foldl applyOp st).status id) ∧
      (isTerminal (dlookup st.status id) = true →
        dlookup (l.foldl applyOp st).status id = dlookup st.status id) := by
  induction l generalizing st with
  | nil => exact ⟨Nat.le.refl, fun _ => rfl⟩
  | cons op rest ih =>
      rw [wfFrom, Bool.and_eq_true] at hwf
      have hstep := status_step_mono st op hinv hwf.1 id
      have hrest := ih (applyOp st op) (stInv_step st op hinv hwf.1) hwf.2
      refine ⟨Nat.le_trans hstep.1 hrest.1, fun hterm => ?_⟩
      have hs := hstep.2 hterm
      have hterm2 : isTerminal (dlookup (applyOp st op).status id) = true := by
        rw [hs]; exact hterm
      rw [List.foldl_cons, hrest.2 hterm2, hs]

theorem wfFrom_append (st : AgentState) (l1 l2 : List AgentOp) :
    wfFrom st (l1 ++ l2) =
      (wfFrom st l1 && wfFrom (l1.foldl applyOp st) l2) := by
  induction l1 generalizing st with
  | nil => simp [wfFrom]
  | cons op rest ih =>
      simp [wfFrom, ih (applyOp st op), Bool.and_assoc]

/-- State of the agent's maps after the first `n` ops of a trace, starting
from a fresh agent. -/
def stateAt (ops : List AgentOp) (n : Nat) : AgentState :=
  (ops.take n).foldl applyOp {}

/-- C8: along any valid trace of run/read operations with distinct task
ids, each task's observable status is monotone in the order
idle → running → {completed, failed}: its rank never decreases, a terminal
status is never changed afterwards, and a task that has been submitted is,
from that point on, never observed idle (nor without a status entry). -/
theorem agent_status_monotone (ops : List AgentOp)
    (hwf : wfFrom {} ops = true) (id : String) (n m : Nat) (hnm : n ≤ m) :
    statusRank (dlookup (stateAt ops n).status id) ≤
        statusRank (dlookup (stateAt ops m).status id) ∧
      (isTerminal (dlookup (stateAt ops n).status id) = true →
        dlookup (stateAt ops m).status id =
          dlookup (stateAt ops n).status id) ∧
      (dlookup (stateAt ops n).tasks id ≠ none →
        dlookup (stateAt ops n).status id ≠ some AgentStatus.idle ∧
          dlookup (stateAt ops n).status id ≠ none) := by
  have hwfn : wfFrom {} (ops.take n) = true := by
    have := wfFrom_append {} (ops.take n) (ops.drop n)
    rw [List.take_append_drop] at this
    rw [hwf] at this
    exact (Bool.and_eq_true _ _).mp this.symm |>.1
  have hinvn : StInv (stateAt ops n) := stInv_fold {} _ stInv_empty hwfn
  have hseg : wfFrom (stateAt ops n) ((ops.drop n).take (m - n)) = true := by
    have hdecomp : ops.take m = ops.take n ++ (ops.drop n).take (m - n) := by
      conv_lhs => rw [← Nat.add_sub_cancel' hnm]
      rw [List.take_add]
    have h1 : wfFrom {} (ops.take m) = true := by
      have := wfFrom_append {} (ops.take m) (ops.drop m)
      rw [List.take_append_drop] at this
      rw [hwf] at this
      exact (Bool.and_eq_true _ _).mp this.symm |>.1
    rw [hdecomp, wfFrom_append, Bool.and_eq_true] at h1
    exact h1.2
  have hm : stateAt ops m =
      ((ops.drop n).take (m - n)).foldl applyOp (stateAt ops n) := by
    show (ops.take m).foldl applyOp {} = _
    conv_lhs => rw [← Nat.add_sub_cancel' hnm]
    rw [List.take_add, List.foldl_append]
    rfl
  have hmono := status_fold_mono (stateAt ops n) _ hinvn hseg id
  refine ⟨?_, ?_, ?_⟩
  · rw [hm]; exact hmono.1
  · intro hterm
    rw [hm]
    exact hmono.2 hterm
  · intro htask
    have h1 := (hinvn id).2 htask
    constructor
    · intro h
      rw [h] at h1
      exact Nat.not_succ_le_zero 0 h1
    · intro h
      rw [h] at h1
      exact Nat.not_succ_le_zero 0 h1

/-- Witness for C8 on a concrete valid trace: a task is started, queried
while running, finished with a failure, and queried again. -/
theorem agent_status_monotone_witness :
    wfFrom {} [AgentOp.runStart exTask, AgentOp.query "t0",
        AgentOp.runFinish "t0" (Except.error "boom"),
        AgentOp.query "t0"] = true ∧
      (1 : Nat) ≤ 3 ∧
      statusRank (dlookup (stateAt [AgentOp.runStart exTask,
          AgentOp.query "t0", AgentOp.runFinish "t0" (Except.error "boom"),
          AgentOp.query "t0"] 1).status "t0") ≤
        statusRank (dlookup (stateAt [AgentOp.runStart exTask,
          AgentOp.query "t0", AgentOp.runFinish "t0" (Except.error "boom"),
          AgentOp.query "t0"] 3).status "t0") := by
  refine ⟨by decide, by decide, ?_⟩
  exact (agent_status_monotone [AgentOp.runStart exTask, AgentOp.query "t0",
    AgentOp.runFinish "t0" (Except.error "boom"), AgentOp.query "t0"]
    (by decide) "t0" 1 3 (by decide)).1

/-! ## The streaming `generate` (`OllamaClient.generate`, lines 25-84, C9)

The stream is a list of line chunks; `none` models a chunk whose UTF-8
decode raises `UnicodeDecodeError` (caught and skipped, like a JSON decode
failure).  A chunk that parses to a non-dict JSON value makes the Python
body raise (`"response" in data` / `data.get` on a non-dict raises
`TypeError`/`AttributeError`, neither of which is caught); this is modelled
as the error arm. -/

/-- Python truthiness of a JSON value (`if data.get("done", False):`). -/
def pyTruthy : JsonVal → Bool
  | JsonVal.null => false
  | JsonVal.bool b => b
  | JsonVal.num n => decide (n ≠ 0)
  | JsonVal.str s => decide (s ≠ "")
  | JsonVal.arr xs => decide (xs ≠ [])
  | JsonVal.obj fs => decide (fs ≠ [])

def streamLoop : List (Option String) → String → Except String String
  | [], acc => Except.ok acc
  | none :: rest, acc => streamLoop rest acc
  | some raw :: rest, acc =>
      if pyStrip raw = "" then streamLoop rest acc
      else
        match jsonParse (pyStrip raw) with
        | Except.error _ => streamLoop rest acc
        | Except.ok data =>
            match data with
            | JsonVal.obj fields =>
                match dlookup fields "response" with
                | some (JsonVal.str s) =>
                    if pyTruthy ((dlookup fields "done").getD
                        (JsonVal.bool false)) then Except.ok (acc ++ s)
                    else streamLoop rest (acc ++ s)
                | some _ =>
                    Except.error "TypeError: can only concatenate str"
                | none =>
                    if pyTruthy ((dlookup fields "done").getD
                        (JsonVal.bool false)) then Except.ok acc
                    else streamLoop rest acc
            | _ => Except.error "TypeError: fragment is not a JSON object"

/-- `OllamaClient.generate`: a non-200 initial status raises the backend
error carrying the response body; otherwise the stream is accumulated. -/
def generate (status : Nat) (errorBody : String)
    (lines : List (Option String)) : Except String String :=
  if status ≠ 200 then Except.error ("Ollama API error: " ++ errorBody)
  else streamLoop lines ""

/-- Spec-side view of one line: the parsed fragment, when the line decodes,
is non-blank and parses as JSON. -/
def fragOf : Option String → Option JsonVal
  | none => none
  | some raw =>
      if pyStrip raw = "" then none else (jsonParse (pyStrip raw)).toOption

/-- Spec-side: the text delta a fragment carries. -/
def deltaOf (v : JsonVal) : String :=
  match v with
  | JsonVal.obj fields =>
      match dlookup fields "response" with
      | some (JsonVal.str s) => s
      | _ => ""
  | _ => ""

/-- Spec-side: the fragment's completion flag. -/
def doneFlag (v : JsonVal) : Bool :=
  match v with
  | JsonVal.obj fields =>
      pyTruthy ((dlookup fields "done").getD (JsonVal.bool false))
  | _ => false

/-- Spec-side: concatenation of deltas, in arrival order, up to and
including the first fragment whose completion flag is set. -/
def concatUntilDone : List JsonVal → String
  | [] => ""
  | v :: rest => deltaOf v ++ (if doneFlag v then "" else concatUntilDone rest)

/-- A fragment that satisfies the backend contract: a JSON object whose
`response` field, when present, is a string. -/
def goodFrag : JsonVal → Bool
  | JsonVal.obj fields =>
      match dlookup fields "response" with
      | none => true
      | some (JsonVal.str _) => true
      | some _ => false
  | _ => false

theorem streamLoop_concat (lines : List (Option String)) :
    ∀ acc, (∀ v ∈ lines.filterMap fragOf, goodFrag v = true) →
      streamLoop lines acc =
        Except.ok (acc ++ concatUntilDone (lines.filterMap fragOf)) := by
  induction lines with
  | nil =>
      intro acc _
      simp [streamLoop, concatUntilDone, String.append_empty]
  | cons l rest ih =>
      intro acc hgood
      have hrest : ∀ v ∈ rest.filterMap fragOf, goodFrag v = true := by
        intro v hv
        apply hgood
        rw [List.filterMap_cons]
        cases fragOf l with
        | none => exact hv
        | some b => exact List.mem_cons_of_mem b hv
      cases l with
      | none =>
          simpa [streamLoop, fragOf, List.filterMap_cons]
            using ih acc hrest
      | some raw =>
          by_cases hblank : pyStrip raw = ""
          · simpa [streamLoop, fragOf, hblank, List.filterMap_cons]
              using ih acc hrest
          · cases hp : jsonParse (pyStrip raw) with
            | error e =>
                simpa [streamLoop, fragOf, hblank, hp, List.filterMap_cons]
                  using ih acc hrest
            | ok data =>
                have hf : fragOf (some raw) = some data := by
                  simp [fragOf, hblank, hp, Except.toOption]
                have hd : goodFrag data = true := by
                  apply hgood
                  rw [List.filterMap_cons, hf]
                  exact List.mem_cons_self data _
                cases data with
                | obj fields =>
                    cases hr : dlookup fields "response" with
                    | some w =>
                        cases w with
                        | str s =>
                            by_cases hdone :
                                pyTruthy ((dlookup fields "done").getD
                                  (JsonVal.bool false)) = true
                            · simp [streamLoop, hblank, hp, hr, hdone,
                                List.filterMap_cons, hf, concatUntilDone,
                                deltaOf, doneFlag, String.append_empty,
                                String.append_assoc]
                            · have hdone2 := eq_false_of_ne_true hdone
                              simp [streamLoop, hblank, hp, hr, hdone2,
                                List.filterMap_cons, hf, concatUntilDone,
                                deltaOf, doneFlag, ih (acc ++ s) hrest,
                                String.append_assoc]
                        | null => simp [goodFrag, hr] at hd
                        | bool b => simp [goodFrag, hr] at hd
                        | num n => simp [goodFrag, hr] at hd
                        | arr xs => simp [goodFrag, hr] at hd
                        | obj fs => simp [goodFrag, hr] at hd
                    | none =>
                        by_cases hdone :
                            pyTruthy ((dlookup fields "done").getD
                              (JsonVal.bool false)) = true
                        · simp [streamLoop, hblank, hp, hr, hdone,
                            List.filterMap_cons, hf, concatUntilDone,
                            deltaOf, doneFlag, String.append_empty,
                            String.empty_append]
                        · have hdone2 := eq_false_of_ne_true hdone
                          simp [streamLoop, hblank, hp, hr, hdone2,
                            List.filterMap_cons, hf, concatUntilDone,
                            deltaOf, doneFlag, ih acc hrest,
                            String.empty_append, String.append_empty]
                | null => simp [goodFrag] at hd
                | bool b => simp [goodFrag] at hd
                | num n => simp [goodFrag] at hd
                | str s => simp [goodFrag] at hd
                | arr xs => simp [goodFrag] at hd

/-- C9: over a stream whose decodable, JSON-valid fragments satisfy the
backend contract (objects whose `response`, when present, is a string),
`generate` with a 200 status returns the concatenation, in arrival order,
of the deltas of the valid fragments up to and including the first whose
completion flag is truthy (all of them when none is), skipping invalid
fragments; and with any non-200 status it fails with the backend error
carrying the response body. -/
theorem generate_spec (status : Nat) (body : String)
    (lines : List (Option String))
    (hgood : ∀ v ∈ lines.filterMap fragOf, goodFrag v = true) :
    generate 200 body lines =
        Except.ok (concatUntilDone (lines.filterMap fragOf)) ∧
      (status ≠ 200 → generate status body lines =
        Except.error ("Ollama API error: " ++ body)) := by
  constructor
  · rw [generate, if_neg (by norm_num)]
    rw [streamLoop_concat lines "" hgood, String.empty_append]
  · intro h
    rw [generate, if_pos h]

/-- Witness for C9: a concrete stream with a malformed chunk, a blank line,
an undecodable chunk, a completing fragment, and a post-completion fragment
that is ignored. -/
theorem generate_spec_witness :
    generate 200 "" [some "\x7b\"response\": \"Hel\", \"done\": false\x7d",
        none, some "   ", some "not json",
        some "\x7b\"response\": \"lo\", \"done\": true\x7d",
        some "\x7b\"response\": \"IGNORED\"\x7d"] = Except.ok "Hello" ∧
      generate 500 "boom" [] =
        Except.error "Ollama API error: boom" := by
  constructor
  · have h := (generate_spec 200 ""
      [some "\x7b\"response\": \"Hel\", \"done\": false\x7d",
        none, some "   ", some "not json",
        some "\x7b\"response\": \"lo\", \"done\": true\x7d",
        some "\x7b\"response\": \"IGNORED\"\x7d"] (by decide)).1
    rw [h]
    decide
  · exact (generate_spec 500 "boom" [] (by decide)).2 (by decide)

/-! ## The executor agent's plan pipeline
(`ExecutorAgent._execute_plan`, `_validate_plan`, `_validate_step`, C2)

`_execute_step_internal` catches every exception and always returns a dict,
so it enters the model as a total oracle `JsonVal → JsonVal → PyDict`
(step, context ↦ step-result dict).  Python operations that can raise
(`x in plan` on a non-container, `.get` on a non-dict) return
`Except String`; an escaping error is converted by `_execute_plan`'s
`except Exception` into the `Execution error: …` result. -/

/-- Python `str(x)` as used in the f-string error message (`None`, bools,
integers and strings are exercised; container rendering is abbreviated,
which no claim inspects). -/
def pyStr : JsonVal → String
  | JsonVal.null => "None"
  | JsonVal.bool true => "True"
  | JsonVal.bool false => "False"
  | JsonVal.num n => toString n
  | JsonVal.str s => s
  | JsonVal.arr _ => "[…]"
  | JsonVal.obj _ => "\x7b…\x7d"

def pyFalsy (v : JsonVal) : Bool := !pyTruthy v

/-- Python `v.get(k, dflt)`: raises `AttributeError` on a non-dict. -/
def pyGet (v : JsonVal) (k : String) (dflt : JsonVal) :
    Except String JsonVal :=
  match v with
  | JsonVal.obj fields => Except.ok ((dlookup fields k).getD dflt)
  | _ => Except.error "AttributeError: object has no attribute get"

/-- Python `k in v` for a non-empty key `k`: key lookup on dicts,
substring test on strings, element equality on lists, `TypeError`
otherwise. -/
def pyContains (v : JsonVal) (k : String) : Except String Bool :=
  match v with
  | JsonVal.obj fields => Except.ok (decide (dlookup fields k ≠ none))
  | JsonVal.str s => Except.ok (decide ((pySplit s k).length > 1))
  | JsonVal.arr xs => Except.ok (decide (JsonVal.str k ∈ xs))
  | _ => Except.error "TypeError: argument is not iterable"

/-- `ExecutorAgent._validate_step`: the three required fields present. -/
def validateStep (step : JsonVal) : Except String Bool :=
  (pyContains step "step_id").bind fun b1 =>
    if !b1 then Except.ok false
    else (pyContains step "title").bind fun b2 =>
      if !b2 then Except.ok false
      else (pyContains step "description").bind fun b3 =>
        if !b3 then Except.ok false else Except.ok true

def validatePlanSteps : List JsonVal → Except String Bool
  | [] => Except.ok true
  | s :: rest =>
      (validateStep s).bind fun b =>
        if !b then Except.ok false else validatePlanSteps rest

/-- `ExecutorAgent._validate_plan`. -/
def validatePlan (plan : JsonVal) : Except String Bool :=
  (pyContains plan "plan_id").bind fun b1 =>
    if !b1 then Except.ok false
    else (pyContains plan "title").bind fun b2 =>
      if !b2 then Except.ok false
      else (pyContains plan "steps").bind fun b3 =>
        if !b3 then Except.ok false
        else (pyGet plan "steps" JsonVal.null).bind fun steps =>
          match steps with
          | JsonVal.arr items => validatePlanSteps items
          | _ => Except.ok false

/-- Total `.get(k)` with `None` default, defined for the record shapes the
loop builds once the step is known to be a dict. -/
def getJ (s : JsonVal) (k : String) : JsonVal :=
  match s with
  | JsonVal.obj fs => (dlookup fs k).getD JsonVal.null
  | _ => JsonVal.null

/-- A step that is a dict carrying the three required fields. -/
def isStepObj (s : JsonVal) : Bool :=
  match s with
  | JsonVal.obj fs =>
      decide (dlookup fs "step_id" ≠ none) &&
        decide (dlookup fs "title" ≠ none) &&
        decide (dlookup fs "description" ≠ none)
  | _ => false

/-- The per-step record `_execute_plan` appends for step `s`. -/
def stepRecord (oracle : JsonVal → JsonVal → PyDict) (ctx s : JsonVal) :
    PyDict :=
  [("step_id", getJ s "step_id"), ("title", getJ s "title"),
   ("status", (dlookup (oracle s ctx) "status").getD JsonVal.null),
   ("output", (dlookup (oracle s ctx) "output").getD JsonVal.null),
   ("error", (dlookup (oracle s ctx) "error").getD JsonVal.null)]

/-- The aggregate dict both return points of `_execute_plan` build. -/
def planResultDict (plan : JsonVal) (completed total : Nat)
    (records : List PyDict) : Except String PyDict :=
  (pyGet plan "plan_id" JsonVal.null).bind fun pid =>
    (pyGet plan "title" JsonVal.null).bind fun ptitle =>
      Except.ok [("plan_id", pid), ("title", ptitle),
        ("steps_completed", JsonVal.num completed),
        ("total_steps", JsonVal.num total),
        ("step_results", JsonVal.arr (records.map JsonVal.obj))]

/-- The step loop of `_execute_plan` (lines 87-112): append the record,
then halt with a failed aggregate when the reported status is "failed"
(so the failing step is counted in `steps_completed`). -/
def planLoop (oracle : JsonVal → JsonVal → PyDict) (ctx : JsonVal)
    (taskId : String) (plan : JsonVal) (total : Nat) :
    List JsonVal → List PyDict → Except String AgentResult
  | [], acc =>
      (planResultDict plan acc.length total acc).bind fun d =>
        Except.ok { task_id := taskId, status := AgentStatus.completed
                    result := some d, error := none }
  | step :: restSteps, acc =>
      (pyGet step "step_id" JsonVal.null).bind fun sid =>
        (pyGet step "title" JsonVal.null).bind fun stitle =>
          let sr := oracle step ctx
          let record : PyDict :=
            [("step_id", sid), ("title", stitle),
             ("status", (dlookup sr "status").getD JsonVal.null),
             ("output", (dlookup sr "output").getD JsonVal.null),
             ("error", (dlookup sr "error").getD JsonVal.null)]
          let acc2 := acc ++ [record]
          if (dlookup sr "status").getD JsonVal.null = JsonVal.str "failed"
          then
            (planResultDict plan acc2.length total acc2).bind fun d =>
              Except.ok { task_id := taskId, status := AgentStatus.failed
                          error := some ("Step " ++ pyStr sid ++ " failed: " ++
                            pyStr ((dlookup sr "error").getD JsonVal.null))
                          result := some d }
          else planLoop oracle ctx taskId plan total restSteps acc2

/-- `ExecutorAgent._execute_plan` with `_execute_step_internal` as the
oracle. -/
def executePlan (oracle : JsonVal → JsonVal → PyDict) (task : AgentTask) :
    AgentResult :=
  let plan := (dlookup task.parameters "plan").getD (JsonVal.obj [])
  let ctx := (dlookup task.parameters "context").getD (JsonVal.str "")
  let body : Except String AgentResult :=
    if pyFalsy plan then
      Except.ok { task_id := task.id, status := AgentStatus.failed
                  error := some "Missing plan" }
    else
      (validatePlan plan).bind fun b =>
        if !b then
          Except.ok { task_id := task.id, status := AgentStatus.failed
                      error := some "Invalid plan structure" }
        else
          (pyGet plan "steps" (JsonVal.arr [])).bind fun stepsV =>
            match stepsV with
            | JsonVal.arr items =>
                planLoop oracle ctx task.id plan items.length items []
            | _ => Except.error "TypeError: object is not iterable"
  match body with
  | Except.ok r => r
  | Except.error e =>
      { task_id := task.id, status := AgentStatus.failed
        error := some ("Execution error: " ++ e) }

/-- Context value `_execute_plan` extracts from the task. -/
def ctxOf (task : AgentTask) : JsonVal :=
  (dlookup task.parameters "context").getD (JsonVal.str "")

theorem pyGet_of_isStepObj (s : JsonVal) (h : isStepObj s = true)
    (k : String) : pyGet s k JsonVal.null = Except.ok (getJ s k) := by
  cases s with
  | obj fs => rfl
  | null => simp [isStepObj] at h
  | bool b => simp [isStepObj] at h
  | num n => simp [isStepObj] at h
  | str s2 => simp [isStepObj] at h
  | arr xs => simp [isStepObj] at h

theorem validateStep_of_isStepObj (s : JsonVal) (h : isStepObj s = true) :
    validateStep s = Except.ok true := by
  cases s with
  | obj fs =>
      rw [isStepObj] at h
      rw [Bool.and_eq_true, Bool.and_eq_true] at h
      obtain ⟨⟨h1, h2⟩, h3⟩ := h
      rw [decide_eq_true_eq] at h1 h2 h3
      simp [validateStep, pyContains, h1, h2, h3, Except.bind]
  | null => simp [isStepObj] at h
  | bool b => simp [isStepObj] at h
  | num n => simp [isStepObj] at h
  | str s2 => simp [isStepObj] at h
  | arr xs => simp [isStepObj] at h

theorem validatePlanSteps_all (items : List JsonVal)
    (h : ∀ s ∈ items, isStepObj s = true) :
    validatePlanSteps items = Except.ok true := by
  induction items with
  | nil => rfl
  | cons s rest ih =>
      rw [validatePlanSteps,
        validateStep_of_isStepObj s (h s (List.mem_cons_self s rest))]
      simp [Except.bind]
      exact ih (fun s2 hs => h s2 (List.mem_cons_of_mem s hs))

theorem planLoop_halts (oracle : JsonVal → JsonVal → PyDict) (ctx : JsonVal)
    (taskId : String) (plan : JsonVal) (pid ptitle : JsonVal)
    (hpidP : pyGet plan "plan_id" JsonVal.null = Except.ok pid)
    (htitleP : pyGet plan "title" JsonVal.null = Except.ok ptitle)
    (total : Nat) (failStep : JsonVal) (rest : List JsonVal)
    (hfailObj : isStepObj failStep = true)
    (hfail : (dlookup (oracle failStep ctx) "status").getD JsonVal.null =
      JsonVal.str "failed") :
    ∀ (pre : List JsonVal) (acc : List PyDict),
      (∀ s ∈ pre, isStepObj s = true) →
      (∀ s ∈ pre, (dlookup (oracle s ctx) "status").getD JsonVal.null ≠
        JsonVal.str "failed") →
      planLoop oracle ctx taskId plan total (pre ++ failStep :: rest) acc =
        Except.ok
          { task_id := taskId,
            status := AgentStatus.failed,
            error := some ("Step " ++ pyStr (getJ failStep "step_id") ++
              " failed: " ++
              pyStr ((dlookup (oracle failStep ctx) "error").getD
                JsonVal.null)),
            result := some [("plan_id", pid), ("title", ptitle),
              ("steps_completed",
                JsonVal.num (acc.length + pre.length + 1)),
              ("total_steps", JsonVal.num total),
              ("step_results", JsonVal.arr
                ((acc ++ (pre ++ [failStep]).map
                  (stepRecord oracle ctx)).map JsonVal.obj))] } := by
  have hstep : ∀ (p : JsonVal), isStepObj p = true →
      (dlookup (oracle p ctx) "status").getD JsonVal.null ≠
        JsonVal.str "failed" →
      ∀ (steps : List JsonVal) (acc : List PyDict),
        planLoop oracle ctx taskId plan total (p :: steps) acc =
          planLoop oracle ctx taskId plan total steps
            (acc ++ [stepRecord oracle ctx p]) := by
    intro p hpObj hnot steps acc
    rw [planLoop, pyGet_of_isStepObj p hpObj "step_id",
      pyGet_of_isStepObj p hpObj "title"]
    simp only [Except.bind, if_neg hnot]
    rfl
  intro pre
  induction pre with
  | nil =>
      intro acc _ _
      rw [List.nil_append, planLoop,
        pyGet_of_isStepObj failStep hfailObj "step_id",
        pyGet_of_isStepObj failStep hfailObj "title"]
      simp only [Except.bind, if_pos hfail, planResultDict, hpidP, htitleP]
      simp [stepRecord, List.length_append]
  | cons p pre2 ih =>
      intro acc hobj hok
      rw [List.cons_append,
        hstep p (hobj p (List.mem_cons_self p pre2))
          (hok p (List.mem_cons_self p pre2)) (pre2 ++ failStep :: rest) acc,
        ih (acc ++ [stepRecord oracle ctx p])
          (fun s hs => hobj s (List.mem_cons_of_mem p hs))
          (fun s hs => hok s (List.mem_cons_of_mem p hs))]
      simp [List.length_append, List.map_cons, List.map_append,
        List.append_assoc, List.singleton_append]
      omega

def exStep1 : JsonVal :=
  JsonVal.obj [("step_id", JsonVal.num 1), ("title", JsonVal.str "s1"),
    ("description", JsonVal.str "d1")]

def exStep2 : JsonVal :=
  JsonVal.obj [("step_id", JsonVal.num 2), ("title", JsonVal.str "s2"),
    ("description", JsonVal.str "d2")]

def exStep3 : JsonVal :=
  JsonVal.obj [("step_id", JsonVal.num 3), ("title", JsonVal.str "s3"),
    ("description", JsonVal.str "d3")]

def exPlanC2 : JsonVal :=
  JsonVal.obj [("plan_id", JsonVal.str "p1"), ("title", JsonVal.str "Demo"),
    ("steps", JsonVal.arr [exStep1, exStep2, exStep3])]

/-- Step oracle: step 2 reports failure, the others success. -/
def exOracle : JsonVal → JsonVal → PyDict := fun step _ =>
  match step with
  | JsonVal.obj fields =>
      if dlookup fields "step_id" = some (JsonVal.num 2) then
        [("status", JsonVal.str "failed"), ("output", JsonVal.str ""),
         ("error", JsonVal.str "boom")]
      else
        [("status", JsonVal.str "completed"), ("output", JsonVal.str "ok")]
  | _ => []

def exC2task : AgentTask :=
  { id := "t2", name := "execute_plan", parameters := [("plan", exPlanC2)] }

/-- C2 (counterexample): for the 3-step plan whose step 2 reports
status=failed, `_execute_plan` reports `steps_completed = 2` — the failing
step is appended to `results` before the halt check and then counted — not
1 as the claim states; `step_results` does have exactly 2 entries. -/
theorem execute_plan_steps_completed_counterexample :
    (executePlan exOracle exC2task).status = AgentStatus.failed ∧
      dlookup ((executePlan exOracle exC2task).result.getD [])
          "steps_completed" = some (JsonVal.num 2) ∧
      dlookup ((executePlan exOracle exC2task).result.getD [])
          "steps_completed" ≠ some (JsonVal.num 1) ∧
      dlookup ((executePlan exOracle exC2task).result.getD [])
          "step_results" = some (JsonVal.arr
            [JsonVal.obj (stepRecord exOracle (ctxOf exC2task) exStep1),
             JsonVal.obj (stepRecord exOracle (ctxOf exC2task) exStep2)]) := by
  refine ⟨by decide, by decide, by decide, by decide⟩

/-- C2 (amended): for every valid plan whose steps are
`pre ++ failStep :: rest`, where each step of `pre` reports a status other
than "failed" and `failStep` reports "failed", `execute_plan` returns a
failed outcome with `steps_completed = |pre| + 1` (the successes plus the
failing step), `step_results` containing exactly the `|pre| + 1` records of
the attempted steps, and `total_steps` the full count; the result does not
depend on the oracle's behaviour on `rest` — steps after the failure are
never attempted. -/
theorem execute_plan_halts (oracle : JsonVal → JsonVal → PyDict)
    (task : AgentTask) (planFields : PyDict) (pid ptitle : JsonVal)
    (pre : List JsonVal) (failStep : JsonVal) (rest : List JsonVal)
    (hplan : dlookup task.parameters "plan" = some (JsonVal.obj planFields))
    (hpid : dlookup planFields "plan_id" = some pid)
    (htitle : dlookup planFields "title" = some ptitle)
    (hsteps : dlookup planFields "steps" =
      some (JsonVal.arr (pre ++ failStep :: rest)))
    (hvalid : ∀ s ∈ pre ++ failStep :: rest, isStepObj s = true)
    (hpre : ∀ s ∈ pre,
      (dlookup (oracle s (ctxOf task)) "status").getD JsonVal.null ≠
        JsonVal.str "failed")
    (hfail : (dlookup (oracle failStep (ctxOf task)) "status").getD
      JsonVal.null = JsonVal.str "failed") :
    executePlan oracle task =
      { task_id := task.id,
        status := AgentStatus.failed,
        error := some ("Step " ++ pyStr (getJ failStep "step_id") ++
          " failed: " ++ pyStr ((dlookup (oracle failStep (ctxOf task))
            "error").getD JsonVal.null)),
        result := some [("plan_id", pid), ("title", ptitle),
          ("steps_completed", JsonVal.num (pre.length + 1)),
          ("total_steps", JsonVal.num (pre ++ failStep :: rest).length),
          ("step_results", JsonVal.arr
            (((pre ++ [failStep]).map
              (stepRecord oracle (ctxOf task))).map JsonVal.obj))] } := by
  have hne : planFields ≠ [] := by
    intro h
    rw [h] at hpid
    exact Option.noConfusion hpid
  have hfalsy : pyFalsy (JsonVal.obj planFields) = false := by
    simp [pyFalsy, pyTruthy, hne]
  have hvp : validatePlan (JsonVal.obj planFields) = Except.ok true := by
    simp [validatePlan, pyContains, hpid, htitle, hsteps, pyGet,
      Except.bind, validatePlanSteps_all _ hvalid]
  have hfailObj : isStepObj failStep = true :=
    hvalid failStep (List.mem_append_right pre (List.mem_cons_self _ _))
  have hloop := planLoop_halts oracle (ctxOf task) task.id
    (JsonVal.obj planFields) pid ptitle
    (by simp [pyGet, hpid]) (by simp [pyGet, htitle])
    (pre ++ failStep :: rest).length failStep rest hfailObj hfail pre []
    (fun s hs => hvalid s (List.mem_append_left _ hs)) hpre
  simp only [ctxOf] at hloop
  simp only [executePlan, ctxOf, hplan, Option.getD_some, hfalsy,
    Bool.false_eq_true, if_false, hvp, Except.bind, Bool.not_true,
    pyGet, hsteps]
  rw [hloop]
  simp

/-- Witness for C2's amended statement on the concrete 3-step plan. -/
theorem execute_plan_halts_witness :
    executePlan exOracle exC2task =
      { task_id := "t2",
        status := AgentStatus.failed,
        error := some "Step 2 failed: boom",
        result := some [("plan_id", JsonVal.str "p1"),
          ("title", JsonVal.str "Demo"),
          ("steps_completed", JsonVal.num 2),
          ("total_steps", JsonVal.num 3),
          ("step_results", JsonVal.arr
            [JsonVal.obj (stepRecord exOracle (ctxOf exC2task) exStep1),
             JsonVal.obj (stepRecord exOracle (ctxOf exC2task) exStep2)])] } := by
  have h := execute_plan_halts exOracle exC2task
    [("plan_id", JsonVal.str "p1"), ("title", JsonVal.str "Demo"),
     ("steps", JsonVal.arr [exStep1, exStep2, exStep3])]
    (JsonVal.str "p1") (JsonVal.str "Demo") [exStep1] exStep2 [exStep3]
    (by decide) (by decide) (by decide) (by decide) (by decide) (by decide)
    (by decide)
  rw [h]
  decide
